import Mathlib

/-!
Shallow embedding of the EBRAINS InterscaleHUB pipeline loops and the
spikes-to-rate transformer.

Each MPI loop iteration of the communicator classes is embedded as a pure
step function from the messages arriving in that iteration to a step result
(continue / return OK / return ERROR), the updated loop-local counter, and
the ordered list of externally visible actions (`Event`) the iteration
performs: MPI receives and sends, busy-waits on the shared-buffer state
cell, writes to the two trailing control cells of the shared buffer, calls
into the mediator, and log calls.  A whole loop is the fold `runLoop` of
its step function over the list of per-iteration inputs, stopping at the
first iteration that returns.

Sources embedded here:
* `src/Interscale_hub/communicator_nest_to_tvb.py` (`CommunicatorNestTvb`)
* `src/refactored_modular/communicator_tvb_to_nest.py` (`CommunicatorTvbNest`)
* `src/refactored_modular/manager_tvb_to_nest.py` (`TvbToNestManager.stop`)
* `src/refactored_modular/wrapper/elephant_wrapper_files/Spiketrain_to_rate.py`
  (`SpikesToRate.transform`, `SpikesToRate.__reshape_buffer_from_nest`)

Machine floats are modelled as rationals; the external `elephant`
`instantaneous_rate` kernel (a third-party library, outside this
repository) is abstracted as an explicit function argument receiving the
spike trains, the window endpoints, the sampling period and the kernel
width, exactly the data the source passes to it.
-/

/-- Return codes of `EBRAINS_RichEndpoint...common_enums.Response` used by the
communicators: `Response.OK` and `Response.ERROR`. -/
inductive Response where
  | OK : Response
  | ERROR : Response
deriving DecidableEq, Repr

/-- The buffer-state values stored in the state cell (index `-1`) of the shared
buffer.  `Interscale_hub.interscalehub_enums.DATA_BUFFER_STATES` provides
`WAIT`, `READY_TO_RECEIVE`, `READY_TO_TRANSFORM`; the `refactored_modular`
enum provides the `READY`/`HEAD` pair used by the TVB-to-NEST direction. -/
inductive DATA_BUFFER_STATES where
  | WAIT : DATA_BUFFER_STATES
  | READY_TO_RECEIVE : DATA_BUFFER_STATES
  | READY_TO_TRANSFORM : DATA_BUFFER_STATES
  | READY : DATA_BUFFER_STATES
  | HEAD : DATA_BUFFER_STATES
deriving DecidableEq, Repr

/-- The two intercommunicators a manager owns: the input link (from the
upstream simulator) and the output link (to the downstream simulator). -/
inductive IntercommType where
  | input : IntercommType
  | output : IntercommType
deriving DecidableEq, Repr

/-- Externally visible actions of one loop iteration, in program order. -/
inductive Event where
  /-- `Recv` of one control byte from peer `source`; `tag` is the MPI tag. -/
  | recvControl (source tag : ℕ) : Event
  /-- completed `irecv`/`wait` of the downstream demand signal. -/
  | recvDemand (source tag : ℕ) : Event
  /-- busy-wait (1 ms sleep polling) until the state cell equals `s`. -/
  | waitForState (s : DATA_BUFFER_STATES) : Event
  /-- `interscalehub_utils.log_exception` with the offending MPI tag. -/
  | logException (tag : ℕ) : Event
  /-- `Send` of the boolean `True` go-ahead, tag 0, to peer `dest`. -/
  | sendReadyAck (dest : ℕ) : Event
  /-- `Recv` of the int32 shape/count announcement from peer `source`. -/
  | recvShape (source n : ℕ) : Event
  /-- `Recv` of `n` float64 payload values from `source` into the shared
  buffer starting at offset `start`. -/
  | recvPayloadAt (source start n : ℕ) : Event
  /-- `set_ready_state_at(index=-1, state=s)` on the buffer manager. -/
  | setStateAt (s : DATA_BUFFER_STATES) : Event
  /-- `set_header_at(index=-2, header=h)` on the buffer manager. -/
  | setHeaderAt (h : ℕ) : Event
  /-- call `mediator.spikes_to_rate(count, size_at_index=-2, INPUT)`. -/
  | mediatorSpikesToRate (count : ℕ) : Event
  /-- call `mediator.rate_to_spike()`. -/
  | mediatorRateToSpike : Event
  /-- `Send` of the 2-float64 times array, given tag, to `dest`. -/
  | sendTimes (dest : ℕ) (times : List ℚ) (tag : ℕ) : Event
  /-- `Send` of the int32 size of the rate array, given tag, to `dest`. -/
  | sendSize (dest n tag : ℕ) : Event
  /-- `Send` of the float64 rate array, given tag, to `dest`. -/
  | sendRates (dest : ℕ) (rates : List ℚ) (tag : ℕ) : Event
  /-- `isend` of the boolean readiness announcement to `dest`, tag 0. -/
  | isendReady (dest : ℕ) : Event
  /-- `Recv` of the initial 2-float64 times blob from `source` into the
  buffer at offset 0; `tag` is the MPI tag it carried. -/
  | recvTimesInto (source tag : ℕ) : Event
  /-- `Recv` of the int32 rate-array size from `source`. -/
  | recvSize (source n : ℕ) : Event
  /-- `Recv` of the int32 count of requested ids from downstream `source`. -/
  | recvSizeList (source k : ℕ) : Event
  /-- `Recv` of the requested spike-generator ids from `source`. -/
  | recvIdList (source : ℕ) (ids : List ℤ) : Event
  /-- `Send` of the int32 packet `[total, per-train sizes...]` with MPI tag
  `tag` (the first requested id) to `dest`. -/
  | sendSpikeSizes (dest : ℕ) (sizes : List ℕ) (tag : ℤ) : Event
  /-- `Send` of the concatenated float64 spike times with MPI tag `tag` to
  `dest`. -/
  | sendSpikeTimes (dest : ℕ) (times : List ℚ) (tag : ℤ) : Event
  /-- `close_and_finalize` on one intercommunicator. -/
  | closeAndFinalize (t : IntercommType) : Event
  /-- the logged `NotImplementedError` of `CommunicatorNestTvb.stop`. -/
  | logStopNotImplemented : Event
deriving DecidableEq, Repr

/-- Outcome of one loop iteration: fall through to the next iteration, or
return from the loop with a `Response`. -/
inductive StepResult where
  | cont : StepResult
  | ret (r : Response) : StepResult
deriving DecidableEq, Repr

/-- Runs a loop: folds the step function over the per-iteration inputs,
threading the loop-local state, concatenating the iterations' events, and
stopping at the first iteration that returns.  Inputs after a return are
never processed.  Result `none` means the loop consumed all supplied
inputs without returning (it would block for more messages). -/
def runLoop {σ α : Type} (step : σ → α → StepResult × σ × List Event) :
    σ → List α → Option Response × σ × List Event
  | s, [] => (none, s, [])
  | s, x :: xs =>
    match step s x with
    | (.ret r, s', es) => (some r, s', es)
    | (.cont, s', es) =>
      match runLoop step s' xs with
      | (r, s'', es') => (r, s'', es ++ es')

/-- Messages consumed by one iteration of `CommunicatorNestTvb._receive`:
the control tag from NEST peer rank 0, the control tags from peer ranks
`1,...,num_sending-1` in order, and (used only on a tag-0 step) the int32
shape each peer announces; `shapes.length = num_sending`. -/
structure N2TRecvInput where
  tag0 : ℕ
  restTags : List ℕ
  shapes : List ℕ
deriving DecidableEq, Repr

/-- The demand message one iteration of `CommunicatorNestTvb._send` waits
for: its source rank (`status_.Get_source()`) and its MPI tag. -/
structure N2TSendInput where
  source : ℕ
  tag : ℕ
deriving DecidableEq, Repr

namespace CommunicatorNestTvb

/-- The `for i in range(1, self._num_sending)` check of `_receive`
(lines 128-140): receive a control byte from each further peer rank `i`
(first argument is the rank of the next peer to read), compare its tag with
`status_rank_0`; at the first mismatch stop and return the offending tag. -/
def scanPeerTags (tag0 : ℕ) : ℕ → List ℕ → Option ℕ × List Event
  | _, [] => (none, [])
  | i, t :: ts =>
    if t = tag0 then
      match scanPeerTags tag0 (i + 1) ts with
      | (r, es) => (r, Event.recvControl i t :: es)
    else (some t, [Event.recvControl i t])

/-- The `for source in range(self._num_sending)` payload phase of
`_receive` (lines 156-173): for each peer send the go-ahead, receive the
announced shape, receive that many floats into the shared buffer at
`running_head`, and advance `running_head` by the shape.  Returns the final
`running_head` and the events. -/
def payloadPhase : ℕ → ℕ → List ℕ → ℕ × List Event
  | _, head, [] => (head, [])
  | source, head, n :: ns =>
    match payloadPhase (source + 1) (head + n) ns with
    | (h, es) =>
      (h, Event.sendReadyAck source :: Event.recvShape source n ::
        Event.recvPayloadAt source head n :: es)

/-- One iteration of `CommunicatorNestTvb._receive` (lines 119-202).
`count` is the loop-local counter initialised to 0 before the loop;
`running_head` is reset to 0 at the top of each iteration.  When all peer
tags match, the switch runs on the tag of the last receive, which then
equals `tag0`. -/
def receiveStep (count : ℕ) (inp : N2TRecvInput) :
    StepResult × ℕ × List Event :=
  match scanPeerTags inp.tag0 1 inp.restTags with
  | (some badTag, es) =>
    (.ret .ERROR, count,
      Event.recvControl 0 inp.tag0 :: es ++ [Event.logException badTag])
  | (none, es) =>
    let pre := Event.recvControl 0 inp.tag0 :: es
    if inp.tag0 = 0 then
      match payloadPhase 0 0 inp.shapes with
      | (runningHead, pes) =>
        (.cont, count,
          pre ++ Event.waitForState .READY_TO_RECEIVE :: pes ++
            [Event.setStateAt .READY_TO_TRANSFORM,
             Event.setHeaderAt runningHead])
    else if inp.tag0 = 1 then (.cont, count + 1, pre)
    else if inp.tag0 = 2 then (.ret .OK, count, pre)
    else (.ret .ERROR, count, pre ++ [Event.logException inp.tag0])

/-- One iteration of `CommunicatorNestTvb._send` (lines 218-285).  `med`
abstracts `mediator.spikes_to_rate`, returning the `(times, data)` pair for
the given count; `count` is the loop-local simulation-step counter. -/
def sendStep (med : ℕ → List ℚ × List ℚ) (count : ℕ) (inp : N2TSendInput) :
    StepResult × ℕ × List Event :=
  let pre := [Event.recvDemand inp.source inp.tag]
  if inp.tag = 0 then
    (.cont, count + 1,
      pre ++
        [Event.waitForState .READY_TO_TRANSFORM,
         Event.mediatorSpikesToRate count,
         Event.setStateAt .READY_TO_RECEIVE,
         Event.sendTimes inp.source (med count).1 0,
         Event.sendSize inp.source (med count).2.length 0,
         Event.sendRates inp.source (med count).2 0])
  else if inp.tag = 1 then (.ret .OK, count, pre)
  else (.ret .ERROR, count, pre ++ [Event.logException inp.tag])

/-- `CommunicatorNestTvb._receive` as a whole: the loop with its local
counter starting at 0. -/
def receiveLoop (inputs : List N2TRecvInput) :
    Option Response × ℕ × List Event :=
  runLoop receiveStep 0 inputs

/-- `CommunicatorNestTvb._send` as a whole: the loop with `count = 0`. -/
def sendLoop (med : ℕ → List ℚ × List ℚ) (inputs : List N2TSendInput) :
    Option Response × ℕ × List Event :=
  runLoop (sendStep med) 0 inputs

/-- `CommunicatorNestTvb.start` (lines 54-75): rank 0 of the intra
communicator runs `_receive`, rank 1 runs `_send`, every other rank falls
through both branches and returns Python `None` (modelled as `none`)
without performing any action. -/
def start (med : ℕ → List ℚ × List ℚ) (rank : ℕ)
    (recvInputs : List N2TRecvInput) (sendInputs : List N2TSendInput) :
    Option Response × List Event :=
  if rank = 0 then
    match receiveLoop recvInputs with
    | (r, _, es) => (r, es)
  else if rank = 1 then
    match sendLoop med sendInputs with
    | (r, _, es) => (r, es)
  else (none, [])

/-- `CommunicatorNestTvb.stop` (lines 77-86): raises `NotImplementedError`,
catches it, logs it, and returns `Response.OK`; nothing is closed. -/
def stop : Response × List Event :=
  (Response.OK, [Event.logStopNotImplemented])

end CommunicatorNestTvb

/-- Messages consumed by one iteration of `CommunicatorTvbNest._receive`:
the MPI tag on the initial 2-float64 times blob from TVB rank 0, and (used
only on a tag-0 step) the announced int32 size of the rate array. -/
structure T2NRecvInput where
  tag : ℕ
  size : ℕ
deriving DecidableEq, Repr

/-- Messages consumed by one iteration of `CommunicatorTvbNest._send`: the
control tag received from each downstream NEST rank (the source checks only
the tag of the last of these), and, per downstream rank, the request
`(size_list, list_id)` it sends on a tag-0 step; `requests.length` is the
number of downstream ranks. -/
structure T2NSendInput where
  ctrlTags : List ℕ
  requests : List (ℕ × List ℤ)
deriving DecidableEq, Repr

/-- Python list indexing on the list of spike trains:
`spikes_times[i]` admits a negative `i` by wrapping from the end; an index
out of `[-len, len)` is junk here (the source would raise `IndexError`). -/
def pyListGet (l : List (List ℚ)) (i : ℤ) : List ℚ :=
  let j := if i < 0 then i + l.length else i
  l.getD j.toNat []

namespace CommunicatorTvbNest

/-- One iteration of `CommunicatorTvbNest._receive` (lines 156-202): send
the readiness announcement to every TVB peer, receive the 2-float64 times
into the buffer at offset 0, then switch on that message's tag.  On tag 0:
busy-wait for state `READY`, receive the int32 size, receive the rates
into the buffer at offset 2, set the state cell to `HEAD`
(`set_head_at(index=-1)`), then write the header cell
(`set_custom_value_at(index=-2, value=size)`). -/
def receiveStep (num_sending : ℕ) (inp : T2NRecvInput) :
    StepResult × List Event :=
  let pre := (List.range num_sending).map Event.isendReady ++
    [Event.recvTimesInto 0 inp.tag]
  if inp.tag = 0 then
    (.cont,
      pre ++
        [Event.waitForState .READY,
         Event.recvSize 0 inp.size,
         Event.recvPayloadAt 0 2 inp.size,
         Event.setStateAt .HEAD,
         Event.setHeaderAt inp.size])
  else if inp.tag = 1 then (.ret .OK, pre)
  else (.ret .ERROR, pre ++ [Event.logException inp.tag])

/-- The body of the `for rank in range(self.__num_receiving)` service loop
of `_send` (lines 267-289) for one downstream rank: receive `size_list`;
when it is nonzero receive the requested ids, select each id's spike train
at index `id - id_first_spike_detector`, and send the int32 packet
`[total, per-train sizes...]` followed by the concatenated float64 spike
times, both with MPI tag `list_id[0]`. -/
def serveRank (spikes : List (List ℚ)) (idFirst : ℤ) (rank : ℕ)
    (req : ℕ × List ℤ) : List Event :=
  match req with
  | (k, ids) =>
    if k ≠ 0 then
      let trains := ids.map (fun i => pyListGet spikes (i - idFirst))
      let shape := trains.map List.length
      [Event.recvSizeList rank k,
       Event.recvIdList rank ids,
       Event.sendSpikeSizes rank (shape.sum :: shape) (ids.headD 0),
       Event.sendSpikeTimes rank trains.flatten (ids.headD 0)]
    else [Event.recvSizeList rank k]

/-- One iteration of `CommunicatorTvbNest._send` (lines 233-308): receive a
control byte from every downstream rank, then switch on the tag of the last
receive.  On tag 0: busy-wait for state `HEAD`, call
`mediator.rate_to_spike()` (its result `spikes_times` is the `spikes`
argument), set the state cell back to `READY`, then serve every downstream
rank in order. -/
def sendStep (spikes : List (List ℚ)) (idFirst : ℤ) (inp : T2NSendInput) :
    StepResult × List Event :=
  let pre := inp.ctrlTags.enum.map (fun p => Event.recvControl p.1 p.2)
  let lastTag := inp.ctrlTags.getLastD 0
  if lastTag = 0 then
    (.cont,
      pre ++
        Event.waitForState .HEAD ::
        Event.mediatorRateToSpike ::
        Event.setStateAt .READY ::
        (inp.requests.enum.map
          (fun p => serveRank spikes idFirst p.1 p.2)).flatten)
  else if lastTag = 1 then (.cont, pre)
  else if lastTag = 2 then (.ret .OK, pre)
  else (.ret .ERROR, pre ++ [Event.logException lastTag])

/-- `CommunicatorTvbNest._receive` as a whole loop (it keeps no counter). -/
def receiveLoop (num_sending : ℕ) (inputs : List T2NRecvInput) :
    Option Response × List Event :=
  match runLoop (fun (_ : Unit) inp =>
      match receiveStep num_sending inp with
      | (r, es) => (r, (), es)) () inputs with
  | (r, _, es) => (r, es)

/-- `CommunicatorTvbNest._send` as a whole loop (it keeps no counter). -/
def sendLoop (spikes : List (List ℚ)) (idFirst : ℤ)
    (inputs : List T2NSendInput) : Option Response × List Event :=
  match runLoop (fun (_ : Unit) inp =>
      match sendStep spikes idFirst inp with
      | (r, es) => (r, (), es)) () inputs with
  | (r, _, es) => (r, es)

/-- `CommunicatorTvbNest.stop` (lines 128-133): sets a flag and returns
`Response.OK`; nothing is closed. -/
def stop : Response × List Event :=
  (Response.OK, [])

end CommunicatorTvbNest

namespace TvbToNestManager

/-- `TvbToNestManager.stop` (lines 173-186): call the communicator's
`stop`, then close and finalize the single intercommunicator this rank
opened: rank 0 owns the output link (to the NEST spike generators), every
other rank owns the input link (from TVB). -/
def stop (rank : ℕ) : List Event :=
  CommunicatorTvbNest.stop.2 ++
    (if rank = 0 then [Event.closeAndFinalize .output]
     else [Event.closeAndFinalize .input])

end TvbToNestManager

/-- `numpy.rint`: round to the nearest integer, ties to even. -/
def rintQ (q : ℚ) : ℤ :=
  let f := q.floor
  let r := q - f
  if r < 1 / 2 then f
  else if 1 / 2 < r then f + 1
  else if f % 2 = 0 then f else f + 1

/-- Python `int(...)` on a float: truncation toward zero. -/
def truncQ (q : ℚ) : ℤ :=
  Int.tdiv q.num q.den

/-- `numpy.around(x, decimals=2)`: round to 2 decimal places, ties to
even. -/
def around2 (q : ℚ) : ℚ :=
  (rintQ (q * 100) : ℚ) / 100

/-- A `neo.core.SpikeTrain`: the spike times plus the window
`[t_start, t_stop]` they live in. -/
structure SpikeTrain where
  times : List ℚ
  t_start : ℚ
  t_stop : ℚ
deriving DecidableEq, Repr

/-- The parameters `SpikesToRate.__init__` keeps: `time_synchronization`,
`resolution`, `nb_neurons[0]` and `id_first_neurons[0]`. -/
structure SpikesToRateParams where
  time_synch : ℚ
  dt : ℚ
  nb_neurons : ℕ
  first_id : ℤ
deriving DecidableEq, Repr

/-- Python list update `bs[i].append(t)` on the bucket list: a negative
index wraps from the end; an index outside `[-len, len)` is the
`IndexError` of the source, modelled as `none`. -/
def pyUpdateBucket (bs : List (List ℚ)) (i : ℤ) (t : ℚ) :
    Option (List (List ℚ)) :=
  let j := if i < 0 then i + bs.length else i
  if 0 ≤ j ∧ j < bs.length then
    some (bs.set j.toNat (bs.getD j.toNat [] ++ [t]))
  else none

/-- The neuron index a spike triple is bucketed under: `int()` of the
second float of the `m`-th triple, minus the configured first neuron id
(line 107-109 of `Spiketrain_to_rate.py`). -/
def neuronIndex (firstId : ℤ) (buffer : List ℚ) (m : ℕ) : ℤ :=
  truncQ (buffer.getD (m * 3 + 1) 0) - firstId

/-- The spike time of the `m`-th triple: the third float of the triple. -/
def spikeTime (buffer : List ℚ) (m : ℕ) : ℚ :=
  buffer.getD (m * 3 + 2) 0

namespace SpikesToRate

/-- The bucketing loop of `__reshape_buffer_from_nest` (lines 104-109) run
over the first `m` triples: starting from `nb` empty per-neuron lists,
append the spike time of each triple to the list of its neuron. -/
def buckets (nb : ℕ) (firstId : ℤ) (buffer : List ℚ) :
    ℕ → Option (List (List ℚ))
  | 0 => some (List.replicate nb [])
  | m + 1 => do
    let bs ← buckets nb firstId buffer m
    pyUpdateBucket bs (neuronIndex firstId buffer m) (spikeTime buffer m)

/-- The per-neuron train construction of `__reshape_buffer_from_nest`
(lines 110-121).  A neuron with two or more bucketed spikes takes the
`len > 1` branch, whose `np.concatenate(spikes_neurons[i])` is applied to
a Python list of 0-d numpy scalars (each `buffer[index_data * 3 + 2]` of
the 1-d float64 buffer) and raises `ValueError: zero-dimensional arrays
cannot be concatenated`, modelled as `none`; a neuron with at most one
spike takes the short branch and yields a `SpikeTrain` over the window
from `around(count * T, 2)` to `around((count + 1) * T, 2) + 0.0001`. -/
def buildTrain (P : SpikesToRateParams) (count : ℕ) (ts : List ℚ) :
    Option SpikeTrain :=
  if 1 < ts.length then none
  else some
    { times := ts
      t_start := around2 (count * P.time_synch)
      t_stop := around2 ((count + 1) * P.time_synch) + 1 / 10000 }

/-- `SpikesToRate.__reshape_buffer_from_nest` (lines 82-121): bucket the
`rint(size_buffer / 3)` spike triples by neuron, then build one
`SpikeTrain` per neuron in neuron order, stopping at the first neuron
whose construction raises (see `buildTrain`). -/
def reshapeBufferFromNest (P : SpikesToRateParams) (count : ℕ)
    (size_buffer : ℚ) (buffer : List ℚ) : Option (List SpikeTrain) := do
  let nSpikes := (rintQ (size_buffer / 3)).toNat
  let bs ← buckets P.nb_neurons P.first_id buffer nSpikes
  bs.mapM (buildTrain P count)

/-- `SpikesToRate.transform` (lines 49-80).  `instRate` abstracts
`elephant.statistics.instantaneous_rate` and receives exactly what the
source passes: the spike trains, `t_start`, `t_stop`, the sampling period
`resolution - 0.000001`, and the width of the `RectangularKernel` (1 ms);
it returns the sample-by-neuron rate matrix.  The result is the times pair
`[count * T, (count + 1) * T]` and `mean(rates, axis=1) / 10`. -/
def transform
    (instRate : List SpikeTrain → ℚ → ℚ → ℚ → ℚ → List (List ℚ))
    (P : SpikesToRateParams) (count : ℕ) (size_buffer : ℚ)
    (buffer : List ℚ) : Option (List ℚ × List ℚ) := do
  let spikes_neurons ← reshapeBufferFromNest P count size_buffer buffer
  let rates := instRate spikes_neurons
    (around2 (count * P.time_synch))
    (around2 ((count + 1) * P.time_synch))
    (P.dt - 1 / 1000000) 1
  let rate := rates.map (fun row => row.sum / (row.length : ℚ) / 10)
  pure ([(count : ℚ) * P.time_synch, ((count : ℚ) + 1) * P.time_synch],
    rate)

end SpikesToRate

/-- Events that process a step's payload on the NEST-to-TVB receive side:
the go-ahead send, the shape and payload receives, and the two
shared-buffer control-cell writes. -/
def isPayloadEvent : Event → Bool
  | .sendReadyAck _ => true
  | .recvShape _ _ => true
  | .recvPayloadAt _ _ _ => true
  | .setStateAt _ => true
  | .setHeaderAt _ => true
  | _ => false

/-- Events that write one of the two control cells of the shared buffer. -/
def isBufferWrite : Event → Bool
  | .setStateAt _ => true
  | .setHeaderAt _ => true
  | _ => false

/-- Events that call into the mediator. -/
def isMediatorEvent : Event → Bool
  | .mediatorSpikesToRate _ => true
  | .mediatorRateToSpike => true
  | _ => false

/-- Events that close an intercommunicator. -/
def isCloseEvent : Event → Bool
  | .closeAndFinalize _ => true
  | _ => false

/-- Scanner for `headerWrittenBeforeState`: `seenHeader` records whether a
header write has already occurred in the part of the trace behind us. -/
def headerBeforeStateAux (s : DATA_BUFFER_STATES) :
    Bool → List Event → Bool
  | _, [] => true
  | _, Event.setHeaderAt _ :: es => headerBeforeStateAux s true es
  | seenHeader, Event.setStateAt s' :: es =>
    (if s' = s then seenHeader else true) &&
      headerBeforeStateAux s seenHeader es
  | seenHeader, _ :: es => headerBeforeStateAux s seenHeader es

/-- Decides the ordering property of claim C1 on a trace: every write of
the state value `s` to the state cell is strictly preceded by a write of
the header cell. -/
def headerWrittenBeforeState (s : DATA_BUFFER_STATES)
    (trace : List Event) : Bool :=
  headerBeforeStateAux s false trace

/-- The number of tag-0 demands the NEST-to-TVB emit loop answers before
its first returning iteration (a non-0 tag returns from the loop). -/
def emitsBeforeReturn : List N2TSendInput → ℕ
  | [] => 0
  | x :: xs => if x.tag = 0 then emitsBeforeReturn xs + 1 else 0



/-! ## Helper lemmas -/

theorem ctrlRange_succ (tag0 i n : ℕ) :
    (List.range (n + 1)).map (fun k => Event.recvControl (i + k) tag0) =
      Event.recvControl i tag0 ::
        (List.range n).map (fun k => Event.recvControl (i + 1 + k) tag0) := by
  rw [List.range_succ_eq_map, List.map_cons, List.map_map]
  simp only [Nat.add_zero]
  congr 1
  apply List.map_congr_left
  intro k _
  simp only [Function.comp_apply]
  congr 1
  omega

theorem scanPeerTags_all_eq (tag0 : ℕ) :
    ∀ (ts : List ℕ) (i : ℕ), (∀ t ∈ ts, t = tag0) →
      CommunicatorNestTvb.scanPeerTags tag0 i ts =
        (none, (List.range ts.length).map
          (fun k => Event.recvControl (i + k) tag0)) := by
  intro ts
  induction ts with
  | nil => intro i _; simp [CommunicatorNestTvb.scanPeerTags]
  | cons t ts ih =>
    intro i h
    have ht : t = tag0 := h t (by simp)
    have hrest : ∀ u ∈ ts, u = tag0 := fun u hu => h u (by simp [hu])
    subst ht
    rw [List.length_cons, ctrlRange_succ]
    simp [CommunicatorNestTvb.scanPeerTags, ih (i + 1) hrest]

theorem scanPeerTags_mismatch (tag0 : ℕ) :
    ∀ (ts : List ℕ) (i : ℕ), (∃ t ∈ ts, t ≠ tag0) →
      ∃ bad es, CommunicatorNestTvb.scanPeerTags tag0 i ts = (some bad, es) ∧
        bad ≠ tag0 ∧ bad ∈ ts ∧
        ∀ e ∈ es, ∃ j u, e = Event.recvControl j u := by
  intro ts
  induction ts with
  | nil => intro i h; simp at h
  | cons t ts ih =>
    intro i h
    by_cases ht : t = tag0
    · have hrest : ∃ u ∈ ts, u ≠ tag0 := by
        rcases h with ⟨u, hu, hne⟩
        rcases List.mem_cons.mp hu with rfl | hu'
        · exact absurd ht hne
        · exact ⟨u, hu', hne⟩
      rcases ih (i + 1) hrest with ⟨bad, es, heq, h1, h2, h3⟩
      refine ⟨bad, Event.recvControl i t :: es, ?_, h1, by simp [h2], ?_⟩
      · simp [CommunicatorNestTvb.scanPeerTags, ht, heq]
      · intro e he
        rcases List.mem_cons.mp he with rfl | he'
        · exact ⟨i, t, rfl⟩
        · exact h3 e he'
    · refine ⟨t, [Event.recvControl i t], ?_, ht, by simp, ?_⟩
      · simp [CommunicatorNestTvb.scanPeerTags, ht]
      · intro e he
        simp at he
        exact ⟨i, t, he⟩

theorem payloadPhase_fst :
    ∀ (ns : List ℕ) (src head : ℕ),
      (CommunicatorNestTvb.payloadPhase src head ns).1 = head + ns.sum := by
  intro ns
  induction ns with
  | nil => intro src head; simp [CommunicatorNestTvb.payloadPhase]
  | cons n ns ih =>
    intro src head
    simp only [CommunicatorNestTvb.payloadPhase]
    rw [show (CommunicatorNestTvb.payloadPhase (src + 1) (head + n) ns) =
      ((CommunicatorNestTvb.payloadPhase (src + 1) (head + n) ns).1,
       (CommunicatorNestTvb.payloadPhase (src + 1) (head + n) ns).2) from rfl]
    simp [ih, List.sum_cons]
    omega

theorem payloadPhase_mem :
    ∀ (ns : List ℕ) (src head s : ℕ), s < ns.length →
      Event.recvPayloadAt (src + s) (head + (ns.take s).sum) (ns.getD s 0) ∈
        (CommunicatorNestTvb.payloadPhase src head ns).2 := by
  intro ns
  induction ns with
  | nil => intro src head s hs; simp at hs
  | cons n ns ih =>
    intro src head s hs
    simp only [CommunicatorNestTvb.payloadPhase]
    rw [show (CommunicatorNestTvb.payloadPhase (src + 1) (head + n) ns) =
      ((CommunicatorNestTvb.payloadPhase (src + 1) (head + n) ns).1,
       (CommunicatorNestTvb.payloadPhase (src + 1) (head + n) ns).2) from rfl]
    match s with
    | 0 => simp
    | s' + 1 =>
      have hs' : s' < ns.length := by simpa using hs
      have := ih (src + 1) (head + n) s' hs'
      simp only [List.take_succ_cons, List.sum_cons, List.getD_cons_succ]
      right; right; right
      have harith : src + (s' + 1) = src + 1 + s' := by omega
      have harith2 : head + (n + (ns.take s').sum) = head + n + (ns.take s').sum := by
        omega
      rw [harith, harith2]
      exact this

theorem payloadPhase_events :
    ∀ (ns : List ℕ) (src head : ℕ),
      ∀ e ∈ (CommunicatorNestTvb.payloadPhase src head ns).2,
        isBufferWrite e = false ∧ isMediatorEvent e = false := by
  intro ns
  induction ns with
  | nil => intro src head e he; simp [CommunicatorNestTvb.payloadPhase] at he
  | cons n ns ih =>
    intro src head e he
    simp only [CommunicatorNestTvb.payloadPhase] at he
    rw [show (CommunicatorNestTvb.payloadPhase (src + 1) (head + n) ns) =
      ((CommunicatorNestTvb.payloadPhase (src + 1) (head + n) ns).1,
       (CommunicatorNestTvb.payloadPhase (src + 1) (head + n) ns).2) from rfl] at he
    simp only [List.mem_cons] at he
    rcases he with rfl | rfl | rfl | he'
    · simp [isBufferWrite, isMediatorEvent]
    · simp [isBufferWrite, isMediatorEvent]
    · simp [isBufferWrite, isMediatorEvent]
    · exact ih (src + 1) (head + n) e he'

theorem runLoop_ret {σ α : Type} (step : σ → α → StepResult × σ × List Event)
    (s : σ) (x : α) (xs : List α) (r : Response) (s' : σ) (es : List Event)
    (h : step s x = (.ret r, s', es)) :
    runLoop step s (x :: xs) = (some r, s', es) := by
  simp [runLoop, h]

/-! ## Claims -/

/-- C1, counterexample.  On a concrete tag-0 step of each receive loop
(one NEST peer announcing 5 floats; a TVB step of size 4), the trace sets
the consumer-admitting state value (`READY_TO_TRANSFORM`, resp. `HEAD`)
although no header write precedes it, so the claimed
header-strictly-before-state ordering is false: both receivers write the
state cell first and the header cell afterwards. -/
theorem claimC1_cex_state_before_header :
    headerWrittenBeforeState .READY_TO_TRANSFORM
        (CommunicatorNestTvb.receiveStep 0 ⟨0, [], [5]⟩).2.2 = false ∧
    Event.setStateAt .READY_TO_TRANSFORM ∈
        (CommunicatorNestTvb.receiveStep 0 ⟨0, [], [5]⟩).2.2 ∧
    Event.setHeaderAt 5 ∈ (CommunicatorNestTvb.receiveStep 0 ⟨0, [], [5]⟩).2.2 ∧
    headerWrittenBeforeState .HEAD
        (CommunicatorTvbNest.receiveStep 1 ⟨0, 4⟩).2 = false ∧
    Event.setStateAt .HEAD ∈ (CommunicatorTvbNest.receiveStep 1 ⟨0, 4⟩).2 ∧
    Event.setHeaderAt 4 ∈ (CommunicatorTvbNest.receiveStep 1 ⟨0, 4⟩).2 := by
  decide

/-- C1, amended.  In both receive loops, on a tag-0 step the receiver sets
the buffer-state cell to the consumer-admitting value
(`READY_TO_TRANSFORM` in the NEST-to-TVB direction, `HEAD` in the
TVB-to-NEST direction) strictly BEFORE writing the header cell: the trace
ends with the state write immediately followed by the header write, and no
control-cell write occurs earlier in the step. -/
theorem claimC1_amended_state_first :
    (∀ (count : ℕ) (rest shapes : List ℕ), (∀ t ∈ rest, t = 0) →
      ∃ es, (CommunicatorNestTvb.receiveStep count ⟨0, rest, shapes⟩).2.2 =
          es ++ [Event.setStateAt .READY_TO_TRANSFORM,
                 Event.setHeaderAt shapes.sum] ∧
        ∀ e ∈ es, isBufferWrite e = false) ∧
    (∀ (ns size : ℕ),
      ∃ es, (CommunicatorTvbNest.receiveStep ns ⟨0, size⟩).2 =
          es ++ [Event.setStateAt .HEAD, Event.setHeaderAt size] ∧
        ∀ e ∈ es, isBufferWrite e = false) := by
  constructor
  · intro count rest shapes hall
    have hscan := scanPeerTags_all_eq 0 rest 1 hall
    rcases hp : CommunicatorNestTvb.payloadPhase 0 0 shapes with ⟨rh, pes⟩
    have hsum := payloadPhase_fst shapes 0 0
    rw [hp] at hsum
    simp only at hsum
    refine ⟨(Event.recvControl 0 0 ::
        (List.range rest.length).map (fun k => Event.recvControl (1 + k) 0)) ++
        Event.waitForState .READY_TO_RECEIVE :: pes, ?_, ?_⟩
    · simp [CommunicatorNestTvb.receiveStep, hscan, hp, hsum]
    · intro e he
      simp only [List.mem_append, List.mem_cons, List.mem_map] at he
      rcases he with (rfl | ⟨k, _, rfl⟩) | rfl | he'
      · rfl
      · rfl
      · rfl
      · have := payloadPhase_events shapes 0 0 e (by rw [hp]; exact he')
        exact this.1
  · intro ns size
    refine ⟨(List.range ns).map Event.isendReady ++
        [Event.recvTimesInto 0 0, Event.waitForState .READY,
         Event.recvSize 0 size, Event.recvPayloadAt 0 2 size], ?_, ?_⟩
    · simp [CommunicatorTvbNest.receiveStep]
    · intro e he
      simp only [List.mem_append, List.mem_map, List.mem_cons,
        List.not_mem_nil, or_false] at he
      rcases he with ⟨k, _, rfl⟩ | rfl | rfl | rfl | rfl
      all_goals rfl

/-- Witness for the C1 amended theorem at a concrete input: one extra NEST
peer (tag 0), shapes `[2, 3]`, and a TVB step of size 4. -/
theorem claimC1_amended_w :
    (∀ t ∈ ([0] : List ℕ), t = 0) ∧
    ((∃ es, (CommunicatorNestTvb.receiveStep 0 ⟨0, [0], [2, 3]⟩).2.2 =
        es ++ [Event.setStateAt .READY_TO_TRANSFORM,
               Event.setHeaderAt ([2, 3] : List ℕ).sum] ∧
      ∀ e ∈ es, isBufferWrite e = false) ∧
     (∃ es, (CommunicatorTvbNest.receiveStep 1 ⟨0, 4⟩).2 =
        es ++ [Event.setStateAt .HEAD, Event.setHeaderAt 4] ∧
      ∀ e ∈ es, isBufferWrite e = false)) :=
  ⟨by decide,
   claimC1_amended_state_first.1 0 [0] [2, 3] (by decide),
   claimC1_amended_state_first.2 1 4⟩

/-- C2: in the NEST-to-TVB receive loop, whenever some further peer rank
delivers a control tag different from rank 0's tag, the step returns
`ERROR`, logs the offending tag, and performs none of the payload
processing of that step (no go-ahead, no shape or payload receive, no
buffer control-cell write). -/
theorem claimC2_tag_mismatch (count : ℕ) (inp : N2TRecvInput)
    (h : ∃ t ∈ inp.restTags, t ≠ inp.tag0) :
    (CommunicatorNestTvb.receiveStep count inp).1 = .ret .ERROR ∧
    (∃ bad ∈ inp.restTags, bad ≠ inp.tag0 ∧
      Event.logException bad ∈
        (CommunicatorNestTvb.receiveStep count inp).2.2) ∧
    ∀ e ∈ (CommunicatorNestTvb.receiveStep count inp).2.2,
      isPayloadEvent e = false := by
  rcases scanPeerTags_mismatch inp.tag0 inp.restTags 1 h with
    ⟨bad, es, heq, h1, h2, h3⟩
  have hres : (CommunicatorNestTvb.receiveStep count inp).1 = .ret .ERROR := by
    simp [CommunicatorNestTvb.receiveStep, heq]
  have htrace : (CommunicatorNestTvb.receiveStep count inp).2.2 =
      Event.recvControl 0 inp.tag0 :: es ++ [Event.logException bad] := by
    simp [CommunicatorNestTvb.receiveStep, heq]
  refine ⟨hres, ⟨bad, h2, h1, ?_⟩, ?_⟩
  · rw [htrace]; simp
  · intro e he
    rw [htrace] at he
    simp only [List.cons_append, List.mem_cons, List.mem_append,
      List.not_mem_nil, or_false] at he
    rcases he with rfl | he | rfl
    · rfl
    · rcases h3 e he with ⟨j, u, rfl⟩; rfl
    · rfl

/-- Witness for C2: two NEST peers sending tags 0 and 1 in the same step
(the S4 scenario of the specification). -/
theorem claimC2_w :
    (CommunicatorNestTvb.receiveStep 0 ⟨0, [1], []⟩).1 = .ret .ERROR ∧
    (∃ bad ∈ ([1] : List ℕ), bad ≠ 0 ∧
      Event.logException bad ∈
        (CommunicatorNestTvb.receiveStep 0 ⟨0, [1], []⟩).2.2) ∧
    ∀ e ∈ (CommunicatorNestTvb.receiveStep 0 ⟨0, [1], []⟩).2.2,
      isPayloadEvent e = false :=
  claimC2_tag_mismatch 0 ⟨0, [1], []⟩ (by decide)

/-- C3: in the NEST-to-TVB emit loop, a tag-0 demand from rank `source`
makes the step busy-wait for `READY_TO_TRANSFORM`, call the mediator's
spikes-to-rate with the current count, set the state cell to
`READY_TO_RECEIVE` before any send, then send exactly three messages to
`source` in order (times with tag 0, the rate-array size with tag 0, the
rate array with tag 0), and increment the loop counter by exactly one. -/
theorem claimC3_emit_tag0 (med : ℕ → List ℚ × List ℚ) (count source : ℕ) :
    CommunicatorNestTvb.sendStep med count ⟨source, 0⟩ =
      (.cont, count + 1,
        [Event.recvDemand source 0,
         Event.waitForState .READY_TO_TRANSFORM,
         Event.mediatorSpikesToRate count,
         Event.setStateAt .READY_TO_RECEIVE,
         Event.sendTimes source (med count).1 0,
         Event.sendSize source (med count).2.length 0,
         Event.sendRates source (med count).2 0]) := by
  simp [CommunicatorNestTvb.sendStep]

/-- C5: in the NEST-to-TVB receive loop, a tag-0 step (all peers agreeing
on tag 0) writes as header exactly the sum of the per-peer shapes of that
step, and the payload receive for peer `s` lands at buffer offset
`shape[0] + ... + shape[s-1]` — in particular peer 0's payload starts at
offset 0, the running head being a per-iteration local reset to 0. -/
theorem claimC5_header_is_shape_sum (count : ℕ) (rest shapes : List ℕ)
    (h : ∀ t ∈ rest, t = 0) :
    CommunicatorNestTvb.receiveStep count ⟨0, rest, shapes⟩ =
      (.cont, count,
        (Event.recvControl 0 0 ::
          (List.range rest.length).map (fun k => Event.recvControl (1 + k) 0)) ++
          Event.waitForState .READY_TO_RECEIVE ::
            (CommunicatorNestTvb.payloadPhase 0 0 shapes).2 ++
          [Event.setStateAt .READY_TO_TRANSFORM,
           Event.setHeaderAt shapes.sum]) ∧
    ∀ s, s < shapes.length →
      Event.recvPayloadAt s ((shapes.take s).sum) (shapes.getD s 0) ∈
        (CommunicatorNestTvb.payloadPhase 0 0 shapes).2 := by
  have hscan := scanPeerTags_all_eq 0 rest 1 h
  constructor
  · rcases hp : CommunicatorNestTvb.payloadPhase 0 0 shapes with ⟨rh, pes⟩
    have hsum := payloadPhase_fst shapes 0 0
    rw [hp] at hsum
    simp only at hsum
    simp [CommunicatorNestTvb.receiveStep, hscan, hp, hsum]
  · intro s hs
    have := payloadPhase_mem shapes 0 0 s hs
    simpa using this

/-- Witness for C5: two peers (rank 0 and rank 1, both tag 0) announcing
shapes 2 and 3; the header is 5 and the payloads land at offsets 0 and 2. -/
theorem claimC5_w :
    CommunicatorNestTvb.receiveStep 7 ⟨0, [0], [2, 3]⟩ =
      (.cont, 7,
        (Event.recvControl 0 0 ::
          (List.range ([0] : List ℕ).length).map
            (fun k => Event.recvControl (1 + k) 0)) ++
          Event.waitForState .READY_TO_RECEIVE ::
            (CommunicatorNestTvb.payloadPhase 0 0 [2, 3]).2 ++
          [Event.setStateAt .READY_TO_TRANSFORM,
           Event.setHeaderAt ([2, 3] : List ℕ).sum]) ∧
    ∀ s, s < ([2, 3] : List ℕ).length →
      Event.recvPayloadAt s ((([2, 3] : List ℕ).take s).sum)
          (([2, 3] : List ℕ).getD s 0) ∈
        (CommunicatorNestTvb.payloadPhase 0 0 [2, 3]).2 :=
  claimC5_header_is_shape_sum 7 [0] [2, 3] (by decide)

/-- C4: each loop returns `OK` exactly on its terminating tag and a logged
`ERROR` on any unrecognized tag, and nothing after a returning iteration
is processed.  Conjuncts: (1) NEST-to-TVB receive: tag 2 returns `OK`,
tags 0 and 1 continue, a tag outside `{0,1,2}` returns `ERROR` with the
offending tag logged; (2) NEST-to-TVB emit: tag 1 returns `OK`, tag 0
continues, a tag outside `{0,1}` returns `ERROR` with the tag logged;
(3) TVB-to-NEST emit: tag 2 returns `OK`, tags 0 and 1 continue, a tag
outside `{0,1,2}` returns `ERROR` with the tag logged; (4) TVB-to-NEST
receive: tag 1 returns `OK`, tag 0 continues, a tag outside `{0,1}`
returns `ERROR` with the tag logged; (5) once an iteration returns, the
loop's result and trace ignore every later input, so no further payload is
processed after the return. -/
theorem claimC4_loop_returns :
    (∀ (count : ℕ) (inp : N2TRecvInput), (∀ t ∈ inp.restTags, t = inp.tag0) →
      (inp.tag0 = 2 → (CommunicatorNestTvb.receiveStep count inp).1 = .ret .OK) ∧
      (inp.tag0 = 1 → (CommunicatorNestTvb.receiveStep count inp).1 = .cont) ∧
      (inp.tag0 = 0 → (CommunicatorNestTvb.receiveStep count inp).1 = .cont) ∧
      (2 < inp.tag0 → (CommunicatorNestTvb.receiveStep count inp).1 = .ret .ERROR ∧
        Event.logException inp.tag0 ∈ (CommunicatorNestTvb.receiveStep count inp).2.2)) ∧
    (∀ (med : ℕ → List ℚ × List ℚ) (count : ℕ) (inp : N2TSendInput),
      (inp.tag = 1 → (CommunicatorNestTvb.sendStep med count inp).1 = .ret .OK) ∧
      (inp.tag = 0 → (CommunicatorNestTvb.sendStep med count inp).1 = .cont) ∧
      (1 < inp.tag → (CommunicatorNestTvb.sendStep med count inp).1 = .ret .ERROR ∧
        Event.logException inp.tag ∈ (CommunicatorNestTvb.sendStep med count inp).2.2)) ∧
    (∀ (spikes : List (List ℚ)) (idFirst : ℤ) (inp : T2NSendInput),
      (inp.ctrlTags.getLastD 0 = 2 →
        (CommunicatorTvbNest.sendStep spikes idFirst inp).1 = .ret .OK) ∧
      (inp.ctrlTags.getLastD 0 = 1 →
        (CommunicatorTvbNest.sendStep spikes idFirst inp).1 = .cont) ∧
      (inp.ctrlTags.getLastD 0 = 0 →
        (CommunicatorTvbNest.sendStep spikes idFirst inp).1 = .cont) ∧
      (2 < inp.ctrlTags.getLastD 0 →
        (CommunicatorTvbNest.sendStep spikes idFirst inp).1 = .ret .ERROR ∧
        Event.logException (inp.ctrlTags.getLastD 0) ∈
          (CommunicatorTvbNest.sendStep spikes idFirst inp).2)) ∧
    (∀ (ns : ℕ) (inp : T2NRecvInput),
      (inp.tag = 1 → (CommunicatorTvbNest.receiveStep ns inp).1 = .ret .OK) ∧
      (inp.tag = 0 → (CommunicatorTvbNest.receiveStep ns inp).1 = .cont) ∧
      (1 < inp.tag → (CommunicatorTvbNest.receiveStep ns inp).1 = .ret .ERROR ∧
        Event.logException inp.tag ∈ (CommunicatorTvbNest.receiveStep ns inp).2)) ∧
    (∀ (σ α : Type) (step : σ → α → StepResult × σ × List Event)
      (s : σ) (x : α) (xs : List α) (r : Response) (s' : σ) (es : List Event),
      step s x = (.ret r, s', es) → runLoop step s (x :: xs) = (some r, s', es)) := by
  refine ⟨?_, ?_, ?_, ?_, ?_⟩
  · intro count inp hall
    obtain ⟨t0, rest, shp⟩ := inp
    have hscan := scanPeerTags_all_eq t0 rest 1 hall
    refine ⟨?_, ?_, ?_, ?_⟩
    · intro h2; subst h2; simp [CommunicatorNestTvb.receiveStep, hscan]
    · intro h1; subst h1; simp [CommunicatorNestTvb.receiveStep, hscan]
    · intro h0
      subst h0
      rcases hp : CommunicatorNestTvb.payloadPhase 0 0 shp with ⟨rh, pes⟩
      simp [CommunicatorNestTvb.receiveStep, hscan, hp]
    · intro hbig
      have hbig' : 2 < t0 := hbig
      have e0 : t0 ≠ 0 := by omega
      have e1 : t0 ≠ 1 := by omega
      have e2 : t0 ≠ 2 := by omega
      constructor
      · simp [CommunicatorNestTvb.receiveStep, hscan, e0, e1, e2]
      · simp [CommunicatorNestTvb.receiveStep, hscan, e0, e1, e2]
  · intro med count inp
    refine ⟨?_, ?_, ?_⟩
    · intro h1; simp [CommunicatorNestTvb.sendStep, h1]
    · intro h0; simp [CommunicatorNestTvb.sendStep, h0]
    · intro hbig
      have e0 : inp.tag ≠ 0 := by omega
      have e1 : inp.tag ≠ 1 := by omega
      constructor
      · simp [CommunicatorNestTvb.sendStep, e0, e1]
      · simp [CommunicatorNestTvb.sendStep, e0, e1]
  · intro spikes idFirst inp
    refine ⟨?_, ?_, ?_, ?_⟩
    · intro h2
      simp only [List.getLastD_eq_getLast?] at h2
      simp [CommunicatorTvbNest.sendStep, h2]
    · intro h1
      simp only [List.getLastD_eq_getLast?] at h1
      simp [CommunicatorTvbNest.sendStep, h1]
    · intro h0
      simp only [List.getLastD_eq_getLast?] at h0
      simp [CommunicatorTvbNest.sendStep, h0]
    · intro hbig
      have e0 : inp.ctrlTags.getLastD 0 ≠ 0 := by omega
      have e1 : inp.ctrlTags.getLastD 0 ≠ 1 := by omega
      have e2 : inp.ctrlTags.getLastD 0 ≠ 2 := by omega
      simp only [List.getLastD_eq_getLast?] at e0 e1 e2
      constructor
      · simp [CommunicatorTvbNest.sendStep, e0, e1, e2]
      · simp [CommunicatorTvbNest.sendStep, e0, e1, e2]
  · intro ns inp
    refine ⟨?_, ?_, ?_⟩
    · intro h1; simp [CommunicatorTvbNest.receiveStep, h1]
    · intro h0; simp [CommunicatorTvbNest.receiveStep, h0]
    · intro hbig
      have e0 : inp.tag ≠ 0 := by omega
      have e1 : inp.tag ≠ 1 := by omega
      constructor
      · simp [CommunicatorTvbNest.receiveStep, e0, e1]
      · simp [CommunicatorTvbNest.receiveStep, e0, e1]
  · intro σ α step s x xs r s' es h
    exact runLoop_ret step s x xs r s' es h

/-- Witness for C4 at concrete inputs: tag 2 ends the NEST-to-TVB receive
loop with `OK` and the rest of the input stream is ignored; tag 1 ends its
emit loop; tag 2 ends the TVB-to-NEST emit loop; tag 1 ends its receive
loop; and tag 7 is a logged fatal in the NEST-to-TVB receive loop. -/
theorem claimC4_w :
    (CommunicatorNestTvb.receiveStep 0 ⟨2, [2], []⟩).1 = .ret .OK ∧
    (CommunicatorNestTvb.receiveStep 0 ⟨7, [], []⟩).1 = .ret .ERROR ∧
    (CommunicatorNestTvb.sendStep (fun _ => ([], [])) 0 ⟨0, 1⟩).1 = .ret .OK ∧
    (CommunicatorTvbNest.sendStep [] 0 ⟨[2], []⟩).1 = .ret .OK ∧
    (CommunicatorTvbNest.receiveStep 1 ⟨1, 0⟩).1 = .ret .OK ∧
    runLoop CommunicatorNestTvb.receiveStep 0
        [⟨2, [], []⟩, ⟨0, [], [9]⟩] =
      (some .OK, 0, [Event.recvControl 0 2]) :=
  ⟨(claimC4_loop_returns.1 0 ⟨2, [2], []⟩ (by decide)).1 rfl,
   ((claimC4_loop_returns.1 0 ⟨7, [], []⟩ (by decide)).2.2.2 (by decide)).1,
   (claimC4_loop_returns.2.1 (fun _ => ([], [])) 0 ⟨0, 1⟩).1 rfl,
   (claimC4_loop_returns.2.2.1 [] 0 ⟨[2], []⟩).1 (by decide),
   (claimC4_loop_returns.2.2.2.1 1 ⟨1, 0⟩).1 rfl,
   claimC4_loop_returns.2.2.2.2 ℕ N2TRecvInput CommunicatorNestTvb.receiveStep
     0 ⟨2, [], []⟩ [⟨0, [], [9]⟩] .OK 0 [Event.recvControl 0 2] (by decide)⟩

/-- Final loop state of the NEST-to-TVB emit loop: the count advances by
exactly the number of tag-0 demands answered before the first return. -/
theorem sendLoop_count_emits (med : ℕ → List ℚ × List ℚ) :
    ∀ (inputs : List N2TSendInput) (c : ℕ),
      (runLoop (CommunicatorNestTvb.sendStep med) c inputs).2.1 =
        c + emitsBeforeReturn inputs := by
  intro inputs
  induction inputs with
  | nil => intro c; simp [runLoop, emitsBeforeReturn]
  | cons x xs ih =>
    intro c
    by_cases hx : x.tag = 0
    · rcases hr : runLoop (CommunicatorNestTvb.sendStep med) (c + 1) xs with
        ⟨r, s2, es2⟩
      have hs2 := ih (c + 1)
      rw [hr] at hs2
      simp only at hs2
      simp [runLoop, CommunicatorNestTvb.sendStep, hx, hr, emitsBeforeReturn,
        hs2]
      omega
    · by_cases h1 : x.tag = 1
      · simp [runLoop, CommunicatorNestTvb.sendStep, hx, h1,
          emitsBeforeReturn]
      · simp [runLoop, CommunicatorNestTvb.sendStep, hx, h1,
          emitsBeforeReturn]

/-- C7: in the TVB-to-NEST emit loop, on a tag-0 step each downstream rank
announcing `k > 0` (with its requested ids in range) is served exactly two
sends after its two receives: the int32 packet whose head is the total
spike count followed by the per-train counts, then the concatenated spike
times, both tagged with the first requested id, each requested id being
looked up at spike-train index `id - id_first_spike_detector`; a rank
announcing `k = 0` is sent nothing; and the tag-0 step's trace is the
concatenation of the per-rank service blocks after the state re-arm. -/
theorem claimC7_spike_requests (spikes : List (List ℚ)) (idFirst : ℤ) :
    (∀ (rank k : ℕ) (ids : List ℤ), k ≠ 0 →
      (∀ i ∈ ids, 0 ≤ i - idFirst ∧ i - idFirst < (spikes.length : ℤ)) →
      CommunicatorTvbNest.serveRank spikes idFirst rank (k, ids) =
        [Event.recvSizeList rank k,
         Event.recvIdList rank ids,
         Event.sendSpikeSizes rank
           ((ids.map (fun i => (spikes.getD (i - idFirst).toNat []).length)).sum ::
             ids.map (fun i => (spikes.getD (i - idFirst).toNat []).length))
           (ids.headD 0),
         Event.sendSpikeTimes rank
           (ids.map (fun i => spikes.getD (i - idFirst).toNat [])).flatten
           (ids.headD 0)]) ∧
    (∀ (rank : ℕ) (ids : List ℤ),
      CommunicatorTvbNest.serveRank spikes idFirst rank (0, ids) =
        [Event.recvSizeList rank 0]) ∧
    (∀ inp : T2NSendInput, inp.ctrlTags.getLastD 0 = 0 →
      CommunicatorTvbNest.sendStep spikes idFirst inp =
        (.cont,
          inp.ctrlTags.enum.map (fun p => Event.recvControl p.1 p.2) ++
            Event.waitForState .HEAD ::
            Event.mediatorRateToSpike ::
            Event.setStateAt .READY ::
            (inp.requests.enum.map
              (fun p => CommunicatorTvbNest.serveRank spikes idFirst p.1 p.2)).flatten)) := by
  refine ⟨?_, ?_, ?_⟩
  · intro rank k ids hk h
    have hmap : ids.map (fun i => pyListGet spikes (i - idFirst)) =
        ids.map (fun i => spikes.getD (i - idFirst).toNat []) := by
      apply List.map_congr_left
      intro i hi
      have hnn : ¬(i - idFirst < 0) := not_lt.mpr (h i hi).1
      simp [pyListGet, hnn]
    simp [CommunicatorTvbNest.serveRank, hk, hmap, Function.comp_def]
  · intro rank ids
    simp [CommunicatorTvbNest.serveRank]
  · intro inp h0
    simp only [List.getLastD_eq_getLast?] at h0
    simp [CommunicatorTvbNest.sendStep, h0]

/-- Witness for C7: two spike trains starting at generator id 5; rank 0
requests ids 6 and 5 (`k = 2`), receiving the packet
`[3, 2, 1]` and the three concatenated times, both tagged 6. -/
theorem claimC7_w :
    (CommunicatorTvbNest.serveRank [[(1 : ℚ) / 2], [3, 4]] 5 0 (2, [6, 5]) =
      [Event.recvSizeList 0 2,
       Event.recvIdList 0 [6, 5],
       Event.sendSpikeSizes 0
         ((([6, 5] : List ℤ).map
             (fun i => (([[(1 : ℚ) / 2], [3, 4]] : List (List ℚ)).getD
               (i - 5).toNat []).length)).sum ::
           ([6, 5] : List ℤ).map
             (fun i => (([[(1 : ℚ) / 2], [3, 4]] : List (List ℚ)).getD
               (i - 5).toNat []).length))
         (([6, 5] : List ℤ).headD 0),
       Event.sendSpikeTimes 0
         ((([6, 5] : List ℤ).map
             (fun i => ([[(1 : ℚ) / 2], [3, 4]] : List (List ℚ)).getD
               (i - 5).toNat [])).flatten)
         (([6, 5] : List ℤ).headD 0)]) ∧
    CommunicatorTvbNest.serveRank [[(1 : ℚ) / 2], [3, 4]] 5 1 (0, []) =
      [Event.recvSizeList 1 0] :=
  ⟨(claimC7_spike_requests [[(1 : ℚ) / 2], [3, 4]] 5).1 0 2 [6, 5]
      (by decide) (by decide),
   (claimC7_spike_requests [[(1 : ℚ) / 2], [3, 4]] 5).2.1 1 []⟩

/-- C8, counterexample.  The per-loop counter is advanced by the loops
themselves, not by the mediator: a tag-1 step of the NEST-to-TVB receive
loop increments its counter from 0 to 1 although its trace contains no
mediator call at all, and the emit loop's counter advances on a tag-0 step
even under a mediator returning a constant -- the increment is the loop's
own `count += 1`, the mediator only receives the count as an argument. -/
theorem claimC8_cex_loop_advances_count :
    CommunicatorNestTvb.receiveStep 0 ⟨1, [], []⟩ =
      (.cont, 1, [Event.recvControl 0 1]) ∧
    ([Event.recvControl 0 1].any isMediatorEvent) = false ∧
    (CommunicatorNestTvb.sendStep (fun _ => ([], [])) 0 ⟨0, 0⟩).2.1 = 1 := by
  decide

/-- C8, amended.  Each pipeline loop owns a loop-local counter starting at
0 and advances it itself: the emit loop increments its count by exactly
one after each successful (tag-0) emit and leaves it unchanged otherwise,
the advance being independent of the mediator (which receives the count as
a call argument and cannot mutate it); over a whole run the emit loop's
final count equals the number of tag-0 demands answered before its first
return; and the receive loop separately increments its own local counter
on each tag-1 (skip) step. -/
theorem claimC8_amended_loop_owns_count :
    (∀ (med : ℕ → List ℚ × List ℚ) (count source : ℕ),
      (CommunicatorNestTvb.sendStep med count ⟨source, 0⟩).2.1 = count + 1) ∧
    (∀ (med : ℕ → List ℚ × List ℚ) (count : ℕ) (inp : N2TSendInput),
      inp.tag ≠ 0 → (CommunicatorNestTvb.sendStep med count inp).2.1 = count) ∧
    (∀ (med med' : ℕ → List ℚ × List ℚ) (count : ℕ) (inp : N2TSendInput),
      (CommunicatorNestTvb.sendStep med count inp).2.1 =
        (CommunicatorNestTvb.sendStep med' count inp).2.1) ∧
    (∀ (med : ℕ → List ℚ × List ℚ) (inputs : List N2TSendInput),
      (CommunicatorNestTvb.sendLoop med inputs).2.1 =
        emitsBeforeReturn inputs) ∧
    (∀ (count : ℕ) (rest : List ℕ), (∀ t ∈ rest, t = 1) →
      (CommunicatorNestTvb.receiveStep count ⟨1, rest, []⟩).2.1 = count + 1) := by
  refine ⟨?_, ?_, ?_, ?_, ?_⟩
  · intro med count source
    simp [CommunicatorNestTvb.sendStep]
  · intro med count inp h0
    by_cases h1 : inp.tag = 1
    · simp [CommunicatorNestTvb.sendStep, h0, h1]
    · simp [CommunicatorNestTvb.sendStep, h0, h1]
  · intro med med' count inp
    by_cases h0 : inp.tag = 0
    · simp [CommunicatorNestTvb.sendStep, h0]
    · by_cases h1 : inp.tag = 1
      · simp [CommunicatorNestTvb.sendStep, h0, h1]
      · simp [CommunicatorNestTvb.sendStep, h0, h1]
  · intro med inputs
    have := sendLoop_count_emits med inputs 0
    simpa [CommunicatorNestTvb.sendLoop] using this
  · intro count rest hall
    have hscan := scanPeerTags_all_eq 1 rest 1 hall
    simp [CommunicatorNestTvb.receiveStep, hscan]

/-- Witness for the C8 amended theorem: a non-0 tag leaves the emit count
unchanged; a run of two tag-0 demands then an end tag finishes with count
2; a tag-1 skip step with one agreeing extra peer bumps the receive
counter. -/
theorem claimC8_amended_w :
    (CommunicatorNestTvb.sendStep (fun _ => ([], [])) 5 ⟨0, 1⟩).2.1 = 5 ∧
    (CommunicatorNestTvb.sendLoop (fun _ => ([], []))
        [⟨0, 0⟩, ⟨0, 0⟩, ⟨0, 1⟩]).2.1 =
      emitsBeforeReturn [⟨0, 0⟩, ⟨0, 0⟩, ⟨0, 1⟩] ∧
    (CommunicatorNestTvb.receiveStep 3 ⟨1, [1], []⟩).2.1 = 3 + 1 :=
  ⟨claimC8_amended_loop_owns_count.2.1 (fun _ => ([], [])) 5 ⟨0, 1⟩
      (by decide),
   claimC8_amended_loop_owns_count.2.2.2.1 (fun _ => ([], []))
      [⟨0, 0⟩, ⟨0, 0⟩, ⟨0, 1⟩],
   claimC8_amended_loop_owns_count.2.2.2.2 3 [1] (by decide)⟩

/-- C9, counterexample.  `TvbToNestManager.stop` does not close both
intercommunicators on every rank: rank 0 never closes the input link,
every other rank never closes the output link, and in the NEST-to-TVB
direction the communicator's `stop` closes nothing at all. -/
theorem claimC9_cex_not_both_closed :
    Event.closeAndFinalize .input ∉ TvbToNestManager.stop 0 ∧
    Event.closeAndFinalize .output ∉ TvbToNestManager.stop 1 ∧
    CommunicatorNestTvb.stop.2.any isCloseEvent = false := by
  decide

/-- C9, amended.  On `stop()` each rank closes and finalizes exactly one
intercommunicator: rank 0 the output link, every other rank the input
link; `CommunicatorNestTvb.stop` merely logs that stopping is
unimplemented and returns `OK`, and `CommunicatorTvbNest.stop` returns
`OK` doing nothing. -/
theorem claimC9_amended_one_close_per_rank (rank : ℕ) :
    TvbToNestManager.stop rank =
      [Event.closeAndFinalize (if rank = 0 then .output else .input)] ∧
    CommunicatorNestTvb.stop = (Response.OK, [Event.logStopNotImplemented]) ∧
    CommunicatorTvbNest.stop = (Response.OK, []) := by
  refine ⟨?_, rfl, rfl⟩
  by_cases h : rank = 0 <;>
    simp [TvbToNestManager.stop, CommunicatorTvbNest.stop, h]

/-- C10: `CommunicatorNestTvb.start` dispatches rank 0 to the receive loop
and rank 1 to the emit loop; every rank at least 2 performs no loop and no
communication and returns Python `None` (neither `OK` nor `ERROR`) with an
empty trace. -/
theorem claimC10_idle_ranks (med : ℕ → List ℚ × List ℚ) (rank : ℕ)
    (rIn : List N2TRecvInput) (sIn : List N2TSendInput) :
    (2 ≤ rank → CommunicatorNestTvb.start med rank rIn sIn = (none, [])) ∧
    CommunicatorNestTvb.start med 0 rIn sIn =
      ((CommunicatorNestTvb.receiveLoop rIn).1,
       (CommunicatorNestTvb.receiveLoop rIn).2.2) ∧
    CommunicatorNestTvb.start med 1 rIn sIn =
      ((CommunicatorNestTvb.sendLoop med sIn).1,
       (CommunicatorNestTvb.sendLoop med sIn).2.2) := by
  refine ⟨?_, ?_, ?_⟩
  · intro h
    have h0 : rank ≠ 0 := by omega
    have h1 : rank ≠ 1 := by omega
    simp [CommunicatorNestTvb.start, h0, h1]
  · rcases hr : CommunicatorNestTvb.receiveLoop rIn with ⟨r, c, es⟩
    simp [CommunicatorNestTvb.start, hr]
  · rcases hr : CommunicatorNestTvb.sendLoop med sIn with ⟨r, c, es⟩
    simp [CommunicatorNestTvb.start, hr]

/-- Witness for C10: in a group of size 3, rank 2 is idle during start. -/
theorem claimC10_w :
    CommunicatorNestTvb.start (fun _ => ([], [])) 2
      [⟨2, [], []⟩] [⟨0, 1⟩] = (none, []) :=
  (claimC10_idle_ranks (fun _ => ([], [])) 2 [⟨2, [], []⟩] [⟨0, 1⟩]).1
    (by decide)

/-- The bucketing loop of the reshape: after processing the first `m`
triples (all of whose neuron indices are in range), bucket `n` holds the
spike times of exactly the triples bucketed under `n`, in buffer order. -/
theorem buckets_characterisation (nb : ℕ) (firstId : ℤ) (buffer : List ℚ) :
    ∀ m : ℕ, (∀ k, k < m → 0 ≤ neuronIndex firstId buffer k ∧
        neuronIndex firstId buffer k < (nb : ℤ)) →
      SpikesToRate.buckets nb firstId buffer m =
        some ((List.range nb).map (fun (n : ℕ) =>
          ((List.range m).filter
            (fun k => neuronIndex firstId buffer k = (n : ℤ))).map
            (spikeTime buffer))) := by
  intro m
  induction m with
  | zero =>
    intro _
    apply congrArg some
    apply List.ext_getElem
    · simp
    · intro n h1 h2
      simp
  | succ m ih =>
    intro h
    have hm : ∀ k, k < m → 0 ≤ neuronIndex firstId buffer k ∧
        neuronIndex firstId buffer k < (nb : ℤ) :=
      fun k hk => h k (Nat.lt_succ_of_lt hk)
    obtain ⟨hge, hlt⟩ := h m (Nat.lt_succ_self m)
    have hneg : ¬(neuronIndex firstId buffer m < 0) := not_lt.mpr hge
    have htn : ((neuronIndex firstId buffer m).toNat : ℤ) =
        neuronIndex firstId buffer m := Int.toNat_of_nonneg hge
    have htlt : (neuronIndex firstId buffer m).toNat < nb := by omega
    simp only [SpikesToRate.buckets, ih hm, Option.bind_eq_bind,
      Option.some_bind, pyUpdateBucket, List.length_map, List.length_range,
      hneg, if_false]
    rw [if_pos ⟨hge, by exact_mod_cast hlt⟩]
    apply congrArg some
    apply List.ext_getElem
    · simp
    · intro n h1 h2
      have hn : n < nb := by simpa using h2
      rw [List.getElem_set]
      by_cases hcase : (neuronIndex firstId buffer m).toNat = n
      · rw [if_pos hcase]
        have hdx : neuronIndex firstId buffer m = (n : ℤ) := by omega
        rw [List.getD_eq_getElem _ _ (by simp [htlt])]
        simp only [List.getElem_map, List.getElem_range]
        rw [hcase]
        rw [List.range_succ, List.filter_append, List.map_append]
        simp [hdx]
      · rw [if_neg hcase]
        simp only [List.getElem_map, List.getElem_range]
        have hdx : ¬(neuronIndex firstId buffer m = (n : ℤ)) := by omega
        rw [List.range_succ, List.filter_append, List.map_append]
        simp [hdx]

theorem ratFloor_intCast (z : ℤ) : Rat.floor ((z : ℚ)) = z := by
  rw [Rat.floor_def']
  simp

theorem rintQ_intCast (z : ℤ) : rintQ ((z : ℚ)) = z := by
  simp only [rintQ, ratFloor_intCast]
  norm_num

/-- C6, code-bug evaluation at the failing input.  With two neurons
(first id 0), window `T = 1` ms, and six buffer floats encoding the spikes
`(100, 0, 0.5)` and `(100, 0, 0.7)` -- both on neuron 0 -- the bucketing
of the `rint(6 / 3) = 2` triples puts both spike times on neuron 0
exactly as the claim describes, but the reshape then takes the source's
`len > 1` branch, whose `np.concatenate` on a list of 0-d scalar spike
times raises `ValueError`, so the transform produces no spike trains, no
times and no rate array where the claim (and the specification) require
the spike train `[0.5, 0.7]` for neuron 0 and a rate result. -/
theorem claimC6_bug_multi_spike_raises :
    SpikesToRate.buckets 2 0 [100, 0, 1 / 2, 100, 0, 7 / 10] 2 =
      some [[1 / 2, 7 / 10], []] ∧
    SpikesToRate.reshapeBufferFromNest ⟨1, 1 / 10, 2, 0⟩ 0 6
      [100, 0, 1 / 2, 100, 0, 7 / 10] = none ∧
    SpikesToRate.transform (fun _ _ _ _ _ => [[(1 : ℚ), 2]])
      ⟨1, 1 / 10, 2, 0⟩ 0 6 [100, 0, 1 / 2, 100, 0, 7 / 10] = none := by
  have hb : SpikesToRate.buckets 2 0 [100, 0, 1 / 2, 100, 0, 7 / 10] 2 =
      some [[1 / 2, 7 / 10], []] := by
    simp [SpikesToRate.buckets, pyUpdateBucket, neuronIndex, spikeTime,
      truncQ, List.getD]
  have h63 : ((6 : ℚ) / 3) = ((2 : ℤ) : ℚ) := by norm_num
  have h2 : (rintQ ((6 : ℚ) / 3)).toNat = 2 := by
    rw [h63, rintQ_intCast]
    rfl
  have hmap : ([[(1 : ℚ) / 2, 7 / 10], ([] : List ℚ)]).mapM
      (SpikesToRate.buildTrain ⟨1, 1 / 10, 2, 0⟩ 0) = none := by
    rfl
  have hresh : SpikesToRate.reshapeBufferFromNest ⟨1, 1 / 10, 2, 0⟩ 0 6
      [100, 0, 1 / 2, 100, 0, 7 / 10] = none := by
    simp only [SpikesToRate.reshapeBufferFromNest, h2, hb,
      Option.bind_eq_bind, Option.some_bind, hmap]
  refine ⟨hb, hresh, ?_⟩
  simp only [SpikesToRate.transform, hresh, Option.bind_eq_bind,
    Option.none_bind]
